import Mathlib

/-!
Verification of the scheduling subsystem of the story-gen repository.

The development shallowly embeds the Python sources:
* `src/database.py` (story_queue table operations used by the scheduler),
* `src/story_queue.py` (`StoryQueue` control loop),
* `src/node_manager.py` (`ProcessingNode`, `NodeManager`),
* `src/ollama_manager.py` (`OllamaManager` step-model routing),
* `src/network_discovery.py` (`FastNetworkDiscovery` endpoint cache).

Conventions: SQLite rows become structure values and tables become lists of
rows in rowid order; Python dicts become association lists in insertion
order; `datetime` values become integers; Python floats become rationals
(exact arithmetic with the same coefficients); columns irrelevant to the
verified claims (timestamps, JSON payloads, ETA fields) are omitted from the
row structures.  Network and filesystem effects are passed in as explicit
parameters (probe results, ping oracles).
-/

/-! ### Generic association lists (Python `dict` in insertion order) -/

/-- Python `d.get(k)`: value of the first binding of `k`, if any. -/
def lookupAssoc {α : Type} (l : List (String × α)) (k : String) : Option α :=
  (l.find? (fun p => p.1 == k)).map (fun p => p.2)

/-- Python `d[k] = v`: replace the (first) binding of `k` in place, else
append at the end, preserving dict insertion order. -/
def setAssoc {α : Type} (l : List (String × α)) (k : String) (v : α) : List (String × α) :=
  match l with
  | [] => [(k, v)]
  | p :: t => if p.1 == k then (k, v) :: t else p :: setAssoc t k v

/-! ### Story queue rows (`story_queue` table, src/database.py)

Row structure after `CREATE TABLE story_queue` (src/database.py:279-298);
the timestamp/ETA/JSON columns are omitted (not consulted by the claims). -/

/-- `status` column values of `story_queue` rows. -/
inductive QStatus where
  | queued
  | processing
  | completed
  | failed
deriving DecidableEq, Repr

/-- One `story_queue` row. -/
structure QItem where
  id : Nat
  priority : Int
  queue_position : Nat
  status : QStatus
  current_step : String
  attempts : Nat
  max_attempts : Nat
  error_message : Option String
deriving DecidableEq, Repr

/-- `ORDER BY priority DESC, queue_position ASC`: row `a` sorts strictly
before row `b`. -/
def queuedBefore (a b : QItem) : Bool :=
  decide (b.priority < a.priority ∨ (a.priority = b.priority ∧ a.queue_position < b.queue_position))

/-- `DatabaseManager.get_next_queue_item` (src/database.py:1131-1146):
the first `queued` row under `ORDER BY priority DESC, queue_position ASC`. -/
def get_next_queue_item (tbl : List QItem) : Option QItem :=
  match tbl.filter (fun it => it.status == QStatus.queued) with
  | [] => none
  | x :: xs => some (xs.foldl (fun best y => if queuedBefore y best then y else best) x)

/-- `MAX(queue_position)` over `queued` rows, with `(max_pos or 0)`
(src/database.py:1115-1117). -/
def maxQueuedPosition (tbl : List QItem) : Nat :=
  (tbl.filter (fun it => it.status == QStatus.queued)).foldl
    (fun m it => max m it.queue_position) 0

/-- `DatabaseManager.add_to_story_queue` (src/database.py:1110-1129): insert a
new `queued` row at position `MAX(queue_position)+1` (column defaults
`status='queued'`, `current_step` set to `'pending'`, `attempts=0`,
`max_attempts=3`). -/
def add_to_story_queue (tbl : List QItem) (id : Nat) (priority : Int) : List QItem :=
  tbl ++ [{ id := id
            priority := priority
            queue_position := maxQueuedPosition tbl + 1
            status := QStatus.queued
            current_step := "pending"
            attempts := 0
            max_attempts := 3
            error_message := none }]

/-- `DatabaseManager.update_queue_item_status` (src/database.py:1148-1204),
restricted to the modelled columns: always sets `status`; sets
`current_step` / `error_message` only when the argument is truthy
(non-empty), mirroring the `if current_step:` / `if error:` guards. -/
def update_queue_item_status (tbl : List QItem) (queue_id : Nat) (status : QStatus)
    (current_step : String) (error : Option String) : List QItem :=
  tbl.map (fun it =>
    if it.id == queue_id then
      { it with
        status := status
        current_step := if current_step ≠ "" then current_step else it.current_step
        error_message :=
          match error with
          | some e => if e ≠ "" then some e else it.error_message
          | none => it.error_message }
    else it)

/-- `DatabaseManager.increment_queue_attempts` (src/database.py:1378-1391):
`attempts += 1` on the row, then `SELECT attempts` returns the new count
(`0` when the row is absent). -/
def increment_queue_attempts (tbl : List QItem) (queue_id : Nat) : List QItem × Nat :=
  let tbl' := tbl.map (fun it =>
    if it.id == queue_id then { it with attempts := it.attempts + 1 } else it)
  (tbl', match tbl'.find? (fun it => it.id == queue_id) with
         | some it => it.attempts
         | none => 0)

/-- `QueueConfig` (src/data_models.py:118-126), the fields the loop reads. -/
structure QueueConfig where
  continuous_enabled : Bool
  render_queue_high_threshold : Nat
  render_queue_low_threshold : Nat
  retry_failed_items : Bool
deriving DecidableEq, Repr

/-- `StoryQueue._should_wait_for_render_queue` (src/story_queue.py:158-167):
`False` when continuous generation is disabled, else
`queued_renders >= render_queue_high_threshold`. -/
def should_wait_for_render_queue (cfg : QueueConfig) (queued_renders : Nat) : Bool :=
  if !cfg.continuous_enabled then false
  else decide (queued_renders ≥ cfg.render_queue_high_threshold)

/-- Outcome of one iteration of `StoryQueue._process_queue`. -/
inductive LoopAction where
  | sleepPaused
  | sleepBackpressure
  | idle
  | popped (item : QItem)
deriving DecidableEq, Repr

/-- One iteration of `StoryQueue._process_queue` (src/story_queue.py:121-156)
up to handing the popped item to `_process_queue_item`, which first marks it
`processing` with step `'story_generation'` (src/story_queue.py:216-218).
The continuous-story synthesis in the idle branch is outside the modelled
claims and is folded into `idle`. -/
def process_queue_iteration (paused : Bool) (cfg : QueueConfig) (queued_renders : Nat)
    (tbl : List QItem) : LoopAction × List QItem :=
  if paused then (LoopAction.sleepPaused, tbl)
  else if should_wait_for_render_queue cfg queued_renders then
    (LoopAction.sleepBackpressure, tbl)
  else
    match get_next_queue_item tbl with
    | none => (LoopAction.idle, tbl)
    | some x =>
      (LoopAction.popped x,
       update_queue_item_status tbl x.id QStatus.processing "story_generation" none)

/-- Pop once: `get_next_queue_item` followed by the `processing` mark. -/
def popOnce (tbl : List QItem) : Option QItem × List QItem :=
  match get_next_queue_item tbl with
  | none => (none, tbl)
  | some x =>
    (some x, update_queue_item_status tbl x.id QStatus.processing "story_generation" none)

/-- Ids of the first `n` jobs popped by repeated scheduler iterations. -/
def popOrderIds (tbl : List QItem) : Nat → List Nat
  | 0 => []
  | n + 1 =>
    match popOnce tbl with
    | (none, _) => []
    | (some x, tbl') => x.id :: popOrderIds tbl' n

/-- Failure handler of `StoryQueue._process_queue_item`
(src/story_queue.py:275-288): increment attempts, then requeue with step
`'retry_pending'` when `attempts < max_attempts` and retry is enabled, else
mark `failed` with step `'max_attempts_reached'`; the captured error message
is recorded either way. -/
def handle_item_failure (cfg : QueueConfig) (tbl : List QItem) (item : QItem)
    (error_msg : String) : List QItem :=
  let r := increment_queue_attempts tbl item.id
  if r.2 < item.max_attempts ∧ cfg.retry_failed_items then
    update_queue_item_status r.1 item.id QStatus.queued "retry_pending" (some error_msg)
  else
    update_queue_item_status r.1 item.id QStatus.failed "max_attempts_reached" (some error_msg)

theorem queuedBefore_self (a : QItem) : queuedBefore a a = false := by
  simp [queuedBefore]

theorem queuedBefore_asymm {a b : QItem} (h : queuedBefore a b = true) :
    queuedBefore b a = false := by
  simp only [queuedBefore, decide_eq_true_eq, decide_eq_false_iff_not] at *
  omega

theorem queuedBefore_neg_trans {a b c : QItem} (h1 : queuedBefore a b = false)
    (h2 : queuedBefore b c = false) : queuedBefore a c = false := by
  simp only [queuedBefore, decide_eq_false_iff_not] at *
  omega

theorem queuedBefore_eq_false_imp {y b : QItem} (h : queuedBefore y b = false) :
    y.priority < b.priority ∨
      (y.priority = b.priority ∧ b.queue_position ≤ y.queue_position) := by
  simp only [queuedBefore, decide_eq_false_iff_not] at h
  omega

theorem foldl_best_mem (x : QItem) (xs : List QItem) :
    xs.foldl (fun best y => if queuedBefore y best then y else best) x ∈ x :: xs := by
  induction xs generalizing x with
  | nil => simp
  | cons z zs ih =>
    simp only [List.foldl_cons]
    by_cases hzx : queuedBefore z x = true
    · rw [if_pos hzx]
      rcases List.mem_cons.1 (ih z) with h | h
      · rw [h]; simp
      · simp [h]
    · rw [if_neg hzx]
      rcases List.mem_cons.1 (ih x) with h | h
      · rw [h]; simp
      · simp [h]

theorem foldl_best_min (x : QItem) (xs : List QItem) :
    ∀ y ∈ x :: xs,
      queuedBefore y (xs.foldl (fun best y => if queuedBefore y best then y else best) x)
        = false := by
  induction xs generalizing x with
  | nil =>
    intro y hy
    have hx : y = x := by simpa using hy
    rw [hx]
    exact queuedBefore_self x
  | cons z zs ih =>
    intro y hy
    simp only [List.foldl_cons]
    by_cases hzx : queuedBefore z x = true
    · rw [if_pos hzx]
      rcases List.mem_cons.1 hy with h | h
      · -- y = x, the loser of the first comparison
        rw [h]
        exact queuedBefore_neg_trans (queuedBefore_asymm hzx)
          (ih z z (List.mem_cons_self z zs))
      · exact ih z y h
    · rw [if_neg hzx]
      have hzx' : queuedBefore z x = false := by
        simpa using hzx
      rcases List.mem_cons.1 hy with h | h
      · rw [h]
        exact ih x x (List.mem_cons_self x zs)
      · rcases List.mem_cons.1 h with h' | h'
        · -- y = z, the loser of the first comparison
          rw [h']
          exact queuedBefore_neg_trans hzx' (ih x x (List.mem_cons_self x zs))
        · exact ih x y (List.mem_cons.2 (Or.inr h'))

/-- C1: the scheduler's pop (`DatabaseManager.get_next_queue_item`,
src/database.py:1131-1146) always returns a QUEUED row beating every other
QUEUED row on (priority desc, queue_position asc); and the [5, 9, 5]
submission scenario (insertion order A=1, B=2, C=3) pops in order B, A, C. -/
theorem get_next_pops_highest_priority_fifo (tbl : List QItem) (x : QItem)
    (hx : get_next_queue_item tbl = some x) :
    (x ∈ tbl ∧ x.status = QStatus.queued ∧
      ∀ y ∈ tbl, y.status = QStatus.queued →
        y.priority < x.priority ∨
          (y.priority = x.priority ∧ x.queue_position ≤ y.queue_position)) ∧
    popOrderIds (add_to_story_queue (add_to_story_queue (add_to_story_queue [] 1 5) 2 9) 3 5) 3
      = [2, 1, 3] := by
  refine ⟨?_, by decide⟩
  unfold get_next_queue_item at hx
  rcases hfil : tbl.filter (fun it => it.status == QStatus.queued) with _ | ⟨x0, xs⟩
  · rw [hfil] at hx
    exact absurd hx (by simp)
  · rw [hfil] at hx
    simp only [Option.some.injEq] at hx
    subst hx
    have hmem : (xs.foldl (fun best y => if queuedBefore y best then y else best) x0)
        ∈ x0 :: xs := foldl_best_mem x0 xs
    have hmem' : (xs.foldl (fun best y => if queuedBefore y best then y else best) x0)
        ∈ tbl.filter (fun it => it.status == QStatus.queued) := by
      rw [hfil]; exact hmem
    have hx_tbl := List.mem_filter.1 hmem'
    refine ⟨hx_tbl.1, by simpa using hx_tbl.2, ?_⟩
    intro y hy hyq
    have hy' : y ∈ x0 :: xs := by
      rw [← hfil]
      exact List.mem_filter.2 ⟨hy, by simp [hyq]⟩
    exact queuedBefore_eq_false_imp (foldl_best_min x0 xs y hy')

/-- Any item returned by `get_next_queue_item` is a `queued` row of the
table (the `WHERE status = 'queued'` filter). -/
theorem get_next_mem_queued {tbl : List QItem} {x : QItem}
    (hx : get_next_queue_item tbl = some x) :
    x ∈ tbl ∧ x.status = QStatus.queued := by
  unfold get_next_queue_item at hx
  rcases hfil : tbl.filter (fun it => it.status == QStatus.queued) with _ | ⟨x0, xs⟩
  · rw [hfil] at hx
    exact absurd hx (by simp)
  · rw [hfil] at hx
    simp only [Option.some.injEq] at hx
    subst hx
    have hmem' : (xs.foldl (fun best y => if queuedBefore y best then y else best) x0)
        ∈ tbl.filter (fun it => it.status == QStatus.queued) := by
      rw [hfil]; exact foldl_best_mem x0 xs
    have h := List.mem_filter.1 hmem'
    exact ⟨h.1, by simpa using h.2⟩

/-- Two-job table used to instantiate the C1 theorem. -/
def witnessTblC1 : List QItem := add_to_story_queue (add_to_story_queue [] 1 5) 2 9

/-- The job the C1 witness expects to be popped first. -/
def witnessItemC1 : QItem :=
  { id := 2
    priority := 9
    queue_position := 2
    status := QStatus.queued
    current_step := "pending"
    attempts := 0
    max_attempts := 3
    error_message := none }

/-- The equal-priority job behind the C1 witness pop. -/
def witnessOtherC1 : QItem :=
  { id := 1
    priority := 5
    queue_position := 1
    status := QStatus.queued
    current_step := "pending"
    attempts := 0
    max_attempts := 3
    error_message := none }

/-- Concrete instantiation of `get_next_pops_highest_priority_fifo`. -/
theorem get_next_pops_highest_priority_fifo_witness :
    witnessItemC1 ∈ witnessTblC1 ∧ witnessItemC1.status = QStatus.queued ∧
    (witnessOtherC1.priority < witnessItemC1.priority ∨
      (witnessOtherC1.priority = witnessItemC1.priority ∧
        witnessItemC1.queue_position ≤ witnessOtherC1.queue_position)) ∧
    popOrderIds (add_to_story_queue (add_to_story_queue (add_to_story_queue [] 1 5) 2 9) 3 5) 3
      = [2, 1, 3] := by
  obtain ⟨⟨h1, h2, h3⟩, h4⟩ :=
    get_next_pops_highest_priority_fifo witnessTblC1 witnessItemC1 (by decide)
  exact ⟨h1, h2, h3 witnessOtherC1 (by decide) (by decide), h4⟩

/-- Default `queue_config` row (src/database.py:302-313): continuous mode
off, watermarks 50/10, retry on. -/
def cfgDefault : QueueConfig :=
  { continuous_enabled := false
    render_queue_high_threshold := 50
    render_queue_low_threshold := 10
    retry_failed_items := true }

/-- The default configuration with continuous generation switched on. -/
def cfgContinuous : QueueConfig := { cfgDefault with continuous_enabled := true }

/-- A table holding the single queued job produced by one submission. -/
def tblOneQueued : List QItem := add_to_story_queue [] 1 5

/-- C2 counterexample: with continuous mode disabled
(`_should_wait_for_render_queue` returns `False` before ever reading the
backlog, src/story_queue.py:160-161), an iteration pops a QUEUED job even
though the render backlog (50) is at the high watermark (50). -/
theorem backpressure_ignored_without_continuous :
    cfgDefault.render_queue_high_threshold ≤ 50 ∧
    (process_queue_iteration false cfgDefault 50 tblOneQueued).1
      = LoopAction.popped
          { id := 1, priority := 5, queue_position := 1, status := QStatus.queued,
            current_step := "pending", attempts := 0, max_attempts := 3,
            error_message := none } := by
  constructor
  · decide
  · decide

/-- C2 (amended): when continuous generation is enabled, an iteration seeing
a backlog at or above the high watermark pops nothing and leaves the table
untouched; with the backlog below the watermark (and the queue not paused),
the next iteration pops the head QUEUED job again. -/
theorem backpressure_when_continuous (cfg : QueueConfig) (paused : Bool)
    (queued_renders : Nat) (tbl : List QItem) :
    (cfg.continuous_enabled = true →
      cfg.render_queue_high_threshold ≤ queued_renders →
      (∀ x, (process_queue_iteration paused cfg queued_renders tbl).1 ≠ LoopAction.popped x) ∧
      (process_queue_iteration paused cfg queued_renders tbl).2 = tbl) ∧
    (queued_renders < cfg.render_queue_high_threshold → paused = false →
      ∀ x, get_next_queue_item tbl = some x →
        (process_queue_iteration paused cfg queued_renders tbl).1 = LoopAction.popped x) := by
  constructor
  · intro hc hq
    have hw : should_wait_for_render_queue cfg queued_renders = true := by
      simp [should_wait_for_render_queue, hc]
      omega
    cases paused with
    | true => simp [process_queue_iteration]
    | false => simp [process_queue_iteration, hw]
  · intro hq hp x hx
    have hw : should_wait_for_render_queue cfg queued_renders = false := by
      cases hc : cfg.continuous_enabled <;> simp [should_wait_for_render_queue, hc]
      omega
    subst hp
    simp [process_queue_iteration, hw, hx]

/-- The single queued row of `tblOneQueued`. -/
def witnessRowC2 : QItem :=
  { id := 1
    priority := 5
    queue_position := 1
    status := QStatus.queued
    current_step := "pending"
    attempts := 0
    max_attempts := 3
    error_message := none }

/-- Concrete instantiation of `backpressure_when_continuous`: backlog 50 at
watermark 50, continuous mode on, one job queued — nothing is popped. -/
theorem backpressure_when_continuous_witness :
    (process_queue_iteration false cfgContinuous 50 tblOneQueued).1
      ≠ LoopAction.popped witnessRowC2 ∧
    (process_queue_iteration false cfgContinuous 50 tblOneQueued).2 = tblOneQueued := by
  obtain ⟨h1, h2⟩ :=
    (backpressure_when_continuous cfgContinuous false 50 tblOneQueued).1 rfl (by decide)
  exact ⟨h1 witnessRowC2, h2⟩

/-- `find?` on the row with a given id commutes with an id-preserving
per-row `UPDATE ... WHERE id = ?`. -/
theorem find?_update_by_id (tbl : List QItem) (queue_id : Nat) (g : QItem → QItem)
    (hg : ∀ it, (g it).id = it.id) :
    (tbl.map (fun it => if it.id == queue_id then g it else it)).find?
        (fun it => it.id == queue_id)
      = (tbl.find? (fun it => it.id == queue_id)).map g := by
  induction tbl with
  | nil => simp
  | cons a l ih =>
    simp only [List.map_cons]
    by_cases h : (a.id == queue_id) = true
    · rw [if_pos h]
      have hga : ((g a).id == queue_id) = true := by
        rw [hg a]; exact h
      simp [List.find?_cons, hga, h]
    · rw [if_neg h]
      have hfalse : (a.id == queue_id) = false := by
        simpa using h
      simpa [List.find?_cons, hfalse] using ih

/-- `find?` on the updated row after `update_queue_item_status`. -/
theorem find?_update_queue_item_status (tbl : List QItem) (queue_id : Nat)
    (status : QStatus) (current_step : String) (error : Option String) :
    (update_queue_item_status tbl queue_id status current_step error).find?
        (fun it => it.id == queue_id)
      = (tbl.find? (fun it => it.id == queue_id)).map (fun it =>
          { it with
            status := status
            current_step := if current_step ≠ "" then current_step else it.current_step
            error_message :=
              match error with
              | some e => if e ≠ "" then some e else it.error_message
              | none => it.error_message }) := by
  unfold update_queue_item_status
  exact find?_update_by_id tbl queue_id _ (fun _ => rfl)

/-- `find?` on the updated row after `increment_queue_attempts`. -/
theorem find?_increment_queue_attempts (tbl : List QItem) (queue_id : Nat) :
    (increment_queue_attempts tbl queue_id).1.find? (fun it => it.id == queue_id)
      = (tbl.find? (fun it => it.id == queue_id)).map
          (fun it => { it with attempts := it.attempts + 1 }) :=
  find?_update_by_id tbl queue_id _ (fun _ => rfl)

/-- C3: when the Executor raises, the handler increments the job's attempt
count by exactly one and records the error; the job returns to QUEUED (step
`retry_pending`) when the new count is below `max_attempts` and retry is
enabled, and becomes FAILED (step `max_attempts_reached`) once the count has
reached `max_attempts`; a FAILED row is never popped by the scheduler again,
so it is never automatically requeued. -/
theorem executor_failure_retry_or_terminal (cfg : QueueConfig) (tbl : List QItem)
    (item : QItem) (error_msg : String) (herr : error_msg ≠ "")
    (hfind : tbl.find? (fun it => it.id == item.id) = some item) :
    (item.attempts + 1 < item.max_attempts → cfg.retry_failed_items = true →
      (handle_item_failure cfg tbl item error_msg).find? (fun it => it.id == item.id)
        = some { item with
                  attempts := item.attempts + 1
                  status := QStatus.queued
                  current_step := "retry_pending"
                  error_message := some error_msg }) ∧
    (item.max_attempts ≤ item.attempts + 1 →
      (handle_item_failure cfg tbl item error_msg).find? (fun it => it.id == item.id)
        = some { item with
                  attempts := item.attempts + 1
                  status := QStatus.failed
                  current_step := "max_attempts_reached"
                  error_message := some error_msg }) ∧
    (∀ tbl2 y, get_next_queue_item tbl2 = some y → y.status = QStatus.queued) := by
  have hincFind : (increment_queue_attempts tbl item.id).1.find? (fun it => it.id == item.id)
      = some { item with attempts := item.attempts + 1 } := by
    rw [find?_increment_queue_attempts, hfind]
    rfl
  have hinc2 : (increment_queue_attempts tbl item.id).2 = item.attempts + 1 := by
    show (match (increment_queue_attempts tbl item.id).1.find? (fun it => it.id == item.id) with
          | some it => it.attempts
          | none => 0) = item.attempts + 1
    rw [hincFind]
  refine ⟨?_, ?_, fun tbl2 y hy => (get_next_mem_queued hy).2⟩
  · intro hlt hretry
    unfold handle_item_failure
    rw [if_pos (by rw [hinc2]; exact ⟨hlt, by rw [hretry]⟩)]
    rw [find?_update_queue_item_status, hincFind]
    simp [herr]
  · intro hge
    unfold handle_item_failure
    rw [if_neg (by rw [hinc2]; intro hand; omega)]
    rw [find?_update_queue_item_status, hincFind]
    simp [herr]

/-- The job the C3 witness retries: first failure, one of three attempts. -/
def witnessItemC3 : QItem :=
  { id := 1
    priority := 5
    queue_position := 1
    status := QStatus.processing
    current_step := "story_generation"
    attempts := 0
    max_attempts := 3
    error_message := none }

/-- Concrete instantiation of `executor_failure_retry_or_terminal`: the
first failure of a fresh job is requeued with `attempts = 1` and the error
recorded. -/
theorem executor_failure_retry_or_terminal_witness :
    (handle_item_failure cfgDefault [witnessItemC3] witnessItemC3 "boom").find?
        (fun it => it.id == witnessItemC3.id)
      = some { witnessItemC3 with
                attempts := 1
                status := QStatus.queued
                current_step := "retry_pending"
                error_message := some "boom" } :=
  (executor_failure_retry_or_terminal cfgDefault [witnessItemC3] witnessItemC3 "boom"
    (by decide) (by decide)).1 (by decide) (by decide)

/-- The just-failed job of the C6 scenario: equal priority 5, position 1. -/
def itemFrontC6 : QItem :=
  { id := 1
    priority := 5
    queue_position := 1
    status := QStatus.processing
    current_step := "story_generation"
    attempts := 0
    max_attempts := 3
    error_message := none }

/-- A QUEUED job of the same priority behind it, at position 2. -/
def itemBehindC6 : QItem :=
  { id := 2
    priority := 5
    queue_position := 2
    status := QStatus.queued
    current_step := "pending"
    attempts := 0
    max_attempts := 3
    error_message := none }

/-- The table of the C6 scenario. -/
def tblC6 : List QItem := [itemFrontC6, itemBehindC6]

/-- C6 counterexample: after a retryable failure of job 1, the handler
requeues it at its old position 1, so the next pop returns job 1 again —
ahead of the equal-priority job 2 sitting behind it.  The requeued job is at
the front of its priority tier, not the back. -/
theorem requeue_front_of_tier_counterexample :
    itemFrontC6.priority = itemBehindC6.priority ∧
    itemBehindC6 ∈ tblC6 ∧ itemBehindC6.status = QStatus.queued ∧
    (get_next_queue_item (handle_item_failure cfgDefault tblC6 itemFrontC6 "boom")).map
        (fun it => it.id)
      = some itemFrontC6.id := by
  decide

/-- C6 (amended): requeuing after a retryable failure never moves any row —
id, priority and queue position of every row are untouched by
`handle_item_failure` — so the retried job keeps its old position at the
front of its priority tier instead of moving to the back. -/
theorem requeue_keeps_queue_position (cfg : QueueConfig) (tbl : List QItem)
    (item : QItem) (error_msg : String) :
    (handle_item_failure cfg tbl item error_msg).map
        (fun it => (it.id, it.priority, it.queue_position))
      = tbl.map (fun it => (it.id, it.priority, it.queue_position)) := by
  have hupd : ∀ (t : List QItem) (qid : Nat) (st : QStatus) (cs : String) (e : Option String),
      (update_queue_item_status t qid st cs e).map
          (fun it => (it.id, it.priority, it.queue_position))
        = t.map (fun it => (it.id, it.priority, it.queue_position)) := by
    intro t qid st cs e
    unfold update_queue_item_status
    rw [List.map_map]
    apply List.map_congr_left
    intro it _
    by_cases h : it.id = qid <;> simp [h]
  have hinc : ∀ (t : List QItem) (qid : Nat),
      (increment_queue_attempts t qid).1.map
          (fun it => (it.id, it.priority, it.queue_position))
        = t.map (fun it => (it.id, it.priority, it.queue_position)) := by
    intro t qid
    show (t.map _).map _ = _
    rw [List.map_map]
    apply List.map_congr_left
    intro it _
    by_cases h : it.id = qid <;> simp [h]
  unfold handle_item_failure
  by_cases hc : (increment_queue_attempts tbl item.id).2 < item.max_attempts
      ∧ cfg.retry_failed_items = true
  · rw [if_pos hc, hupd, hinc]
  · rw [if_neg hc, hupd, hinc]

/-! ### Worker nodes and tasks (src/node_manager.py) -/

/-- `NodeType` (src/node_manager.py:14-18). -/
inductive NodeType where
  | text_llm
  | comfyui
  | hybrid
deriving DecidableEq, Repr

/-- `NodeStatus` (src/node_manager.py:20-27). -/
inductive NodeStatus where
  | available
  | busy_text
  | busy_comfyui
  | busy_both
  | offline
  | error
deriving DecidableEq, Repr

/-- The two task types dispatched by the node manager (`task_type` is the
string `'text_llm'` or `'comfyui'` in the source). -/
inductive TaskType where
  | text_llm
  | comfyui
deriving DecidableEq, Repr

/-- `ProcessingTask.status` string values. -/
inductive TaskStatus where
  | queued
  | processing
  | completed
  | failed
deriving DecidableEq, Repr

/-- `ProcessingTask` (src/node_manager.py:29-42). -/
structure PTask where
  task_id : String
  task_type : TaskType
  step : String
  priority : Int
  created_at : Int
  assigned_node : Option String
  started_at : Option Int
  completed_at : Option Int
  status : TaskStatus
  result : Option String
  error : Option String
deriving DecidableEq, Repr

/-- `ProcessingNode` (src/node_manager.py:44-64); the `current_tasks` dict
becomes one field per key, `avg_processing_time` one optional average per
task type; floats become rationals; the Ollama/ComfyUI port and model
metadata fields play no role in scheduling and are omitted. -/
structure PNode where
  node_id : String
  host : String
  capabilities : List NodeType
  status : NodeStatus
  current_text_llm : Option PTask
  current_comfyui : Option PTask
  last_heartbeat : Int
  total_completed : Nat
  avg_text_llm : Option Rat
  avg_comfyui : Option Rat
deriving DecidableEq, Repr

/-- `ProcessingTask.__init__` (src/node_manager.py:31-42). -/
def newProcessingTask (task_id : String) (task_type : TaskType) (stepName : String)
    (priority : Int) (now : Int) : PTask :=
  { task_id := task_id
    task_type := task_type
    step := stepName
    priority := priority
    created_at := now
    assigned_node := none
    started_at := none
    completed_at := none
    status := TaskStatus.queued
    result := none
    error := none }

/-- `ProcessingNode.__init__` (src/node_manager.py:46-64). -/
def newProcessingNode (node_id host : String) (capabilities : List NodeType)
    (now : Int) : PNode :=
  { node_id := node_id
    host := host
    capabilities := capabilities
    status := NodeStatus.available
    current_text_llm := none
    current_comfyui := none
    last_heartbeat := now
    total_completed := 0
    avg_text_llm := none
    avg_comfyui := none }

/-- `self.current_tasks[task_type]`. -/
def slotOf (n : PNode) : TaskType → Option PTask
  | TaskType.text_llm => n.current_text_llm
  | TaskType.comfyui => n.current_comfyui

/-- `self.current_tasks[task_type] = v`. -/
def setSlot (n : PNode) (tt : TaskType) (v : Option PTask) : PNode :=
  match tt with
  | TaskType.text_llm => { n with current_text_llm := v }
  | TaskType.comfyui => { n with current_comfyui := v }

/-- The capability test of `ProcessingNode.can_handle_task`
(src/node_manager.py:66-76): the node advertises the dedicated capability or
`HYBRID`. -/
def hasCapabilityFor (n : PNode) : TaskType → Bool
  | TaskType.text_llm =>
    n.capabilities.contains NodeType.text_llm || n.capabilities.contains NodeType.hybrid
  | TaskType.comfyui =>
    n.capabilities.contains NodeType.comfyui || n.capabilities.contains NodeType.hybrid

/-- `ProcessingNode.can_handle_task` (src/node_manager.py:66-76): capability
advertised and the matching slot free. -/
def can_handle_task (n : PNode) (tt : TaskType) : Bool :=
  hasCapabilityFor n tt && (slotOf n tt).isNone

/-- `ProcessingNode.update_status` (src/node_manager.py:117-129). -/
def update_status (n : PNode) : PNode :=
  { n with status :=
      if n.current_text_llm.isSome && n.current_comfyui.isSome then NodeStatus.busy_both
      else if n.current_text_llm.isSome then NodeStatus.busy_text
      else if n.current_comfyui.isSome then NodeStatus.busy_comfyui
      else NodeStatus.available }

/-- `ProcessingNode.assign_task` (src/node_manager.py:78-90): refuse when
`can_handle_task` fails (returning `False` mutates nothing), else occupy the
slot, stamp the task and recompute the status. -/
def assign_task (n : PNode) (t : PTask) (now : Int) : Option (PNode × PTask) :=
  if can_handle_task n t.task_type then
    let t' := { t with
                assigned_node := some n.node_id
                started_at := some now
                status := TaskStatus.processing }
    some (update_status (setSlot n t.task_type (some t')), t')
  else none

/-- Python truthiness of the `result` argument (`None` and `''` are falsy). -/
def truthyResult : Option String → Bool
  | none => false
  | some s => !(s == "")

/-- `self.avg_processing_time.get(task_type)`. -/
def avgOf (n : PNode) : TaskType → Option Rat
  | TaskType.text_llm => n.avg_text_llm
  | TaskType.comfyui => n.avg_comfyui

/-- `self.avg_processing_time[task_type] = v`. -/
def setAvg (n : PNode) (tt : TaskType) (v : Rat) : PNode :=
  match tt with
  | TaskType.text_llm => { n with avg_text_llm := some v }
  | TaskType.comfyui => { n with avg_comfyui := some v }

/-- `ProcessingNode.complete_task` (src/node_manager.py:92-115): a no-op
unless `task` is the occupant of its type's slot; otherwise clear the slot,
record completion (`completed` exactly on a truthy result, else `failed`),
fold the processing time into the EMA (coefficients 0.8/0.2), bump
`total_completed` on a truthy result and recompute the status. -/
def complete_task (n : PNode) (t : PTask) (result error : Option String)
    (now : Int) : PNode × PTask :=
  if slotOf n t.task_type == some t then
    let t' := { t with
                completed_at := some now
                status := if truthyResult result then TaskStatus.completed else TaskStatus.failed
                result := result
                error := error }
    let n1 := setSlot n t.task_type none
    let n2 :=
      match t.started_at with
      | some st =>
        let pt : Rat := ((now - st : Int) : Rat)
        match avgOf n1 t.task_type with
        | none => setAvg n1 t.task_type pt
        | some a => setAvg n1 t.task_type ((4 / 5 : Rat) * a + (1 / 5 : Rat) * pt)
      | none => n1
    let n3 := if truthyResult result then { n2 with total_completed := n2.total_completed + 1 } else n2
    (update_status n3, t')
  else (n, t)

/-- `ProcessingNode.calculate_load_score` (src/node_manager.py:131-142). -/
def calculate_load_score (n : PNode) : Rat :=
  let base_load : Rat := (([n.current_text_llm, n.current_comfyui].filterMap id).length : Rat)
  let avgs := [n.avg_text_llm, n.avg_comfyui].filterMap id
  let avg_time : Rat := (avgs.foldl (fun a b => a + b) 0) / ((max 1 avgs.length : Nat) : Rat)
  let completion_bonus : Rat := min ((n.total_completed : Rat) * (1 / 10)) 2
  base_load + avg_time / 60 - completion_bonus

/-- `NodeManager` state (src/node_manager.py:144-160): the node dict in
insertion order, the pending task queue, the completed-task list and the
step assignments.  The fixed settings keep only `max_queue_size`. -/
structure MState where
  nodes : List PNode
  task_queue : List PTask
  completed_tasks : List PTask
  step_assignments : List (String × List String)
  max_queue_size : Nat
deriving DecidableEq, Repr

/-- `NodeManager.__init__`. -/
def initMState : MState :=
  { nodes := []
    task_queue := []
    completed_tasks := []
    step_assignments := []
    max_queue_size := 100 }

/-- `self.nodes[node_id]` lookup. -/
def lookupNode (ns : List PNode) (id : String) : Option PNode :=
  ns.find? (fun n => n.node_id == id)

/-- In-place mutation of the node object held in `self.nodes`. -/
def setNode (ns : List PNode) (n : PNode) : List PNode :=
  ns.map (fun m => if m.node_id == n.node_id then n else m)

/-- `self.nodes[node_id] = node`: replace in place or append. -/
def insertNode (ns : List PNode) (n : PNode) : List PNode :=
  if ns.any (fun m => m.node_id == n.node_id) then
    ns.map (fun m => if m.node_id == n.node_id then n else m)
  else ns ++ [n]

/-- `NodeManager.add_node` (src/node_manager.py:183-192); capability
auto-discovery only fills metadata fields that are not modelled. -/
def add_node (s : MState) (node_id host : String) (capabilities : List NodeType)
    (now : Int) : MState :=
  { s with nodes := insertNode s.nodes (newProcessingNode node_id host capabilities now) }

/-- The slot tasks failed by `NodeManager.remove_node`
(src/node_manager.py:199-204), in `current_tasks` iteration order. -/
def failedRemovedTasks (n : PNode) : List PTask :=
  ((slotOf n TaskType.text_llm).toList ++ (slotOf n TaskType.comfyui).toList).map
    (fun t => { t with
                status := TaskStatus.failed
                error := some ("Node " ++ n.node_id ++ " was removed") })

/-- `NodeManager.remove_node` (src/node_manager.py:194-212). -/
def remove_node (s : MState) (node_id : String) : MState :=
  match lookupNode s.nodes node_id with
  | none => s
  | some n =>
    { s with
      nodes := s.nodes.filter (fun m => !(m.node_id == node_id))
      completed_tasks := s.completed_tasks ++ failedRemovedTasks n
      step_assignments := s.step_assignments.map
        (fun p => (p.1, p.2.filter (fun x => !(x == node_id)))) }

/-- `NodeManager.assign_node_to_step` (src/node_manager.py:214-224); an
unknown node raises `ValueError` and changes nothing. -/
def assign_node_to_step (s : MState) (stepName node_id : String) : MState :=
  if (lookupNode s.nodes node_id).isSome then
    let cur := (lookupAssoc s.step_assignments stepName).getD []
    if node_id ∈ cur then s
    else { s with step_assignments := setAssoc s.step_assignments stepName (cur ++ [node_id]) }
  else s

/-- `NodeManager.unassign_node_from_step` (src/node_manager.py:226-230). -/
def unassign_node_from_step (s : MState) (stepName node_id : String) : MState :=
  match lookupAssoc s.step_assignments stepName with
  | none => s
  | some l =>
    if node_id ∈ l then
      { s with step_assignments :=
          setAssoc s.step_assignments stepName (l.filter (fun x => !(x == node_id))) }
    else s

/-- The priority insertion of `NodeManager.submit_task`
(src/node_manager.py:258-267): before the first strictly-lower-priority
entry, else appended. -/
def insertByPriority (t : PTask) : List PTask → List PTask
  | [] => [t]
  | q :: qs => if q.priority < t.priority then t :: q :: qs else q :: insertByPriority t qs

/-- `NodeManager.submit_task` (src/node_manager.py:251-270): `none` models
the `RuntimeError` on a full queue. -/
def submit_task (s : MState) (task_id : String) (task_type : TaskType)
    (stepName : String) (priority : Int) (now : Int) : Option (MState × PTask) :=
  if s.max_queue_size ≤ s.task_queue.length then none
  else
    let t := newProcessingTask task_id task_type stepName priority now
    some ({ s with task_queue := insertByPriority t s.task_queue }, t)

/-- Stable insertion by load score, modelling Python's stable
`list.sort(key=calculate_load_score)`. -/
def insertByLoad (n : PNode) : List PNode → List PNode
  | [] => [n]
  | x :: xs =>
    if calculate_load_score n ≤ calculate_load_score x then n :: x :: xs
    else x :: insertByLoad n xs

/-- Stable sort by load score (insertion sort from the right). -/
def sortByLoad (l : List PNode) : List PNode := l.foldr insertByLoad []

/-- `NodeManager.get_available_nodes_for_step` (src/node_manager.py:232-249):
step-assigned node ids (all nodes when none), filtered to ids present with a
not-OFFLINE/ERROR status that can handle the task type, sorted by load. -/
def get_available_nodes_for_step (s : MState) (stepName : String) (tt : TaskType) :
    List PNode :=
  let assigned_ids := (lookupAssoc s.step_assignments stepName).getD []
  let ids := if assigned_ids.isEmpty then s.nodes.map (fun n => n.node_id) else assigned_ids
  let available := ids.filterMap (fun id =>
    match lookupNode s.nodes id with
    | some n =>
      if (!(n.status == NodeStatus.offline) && !(n.status == NodeStatus.error))
          && can_handle_task n tt then some n
      else none
    | none => none)
  sortByLoad available

/-- One iteration of `NodeManager._process_queue` (src/node_manager.py:292-318):
inspect the queue head, pick the least-loaded available node, and on a
successful `assign_task` dequeue the task (its execution then runs on a
separate thread and finishes via `complete_step`). -/
def process_queue_step (s : MState) (now : Int) : MState :=
  match s.task_queue with
  | [] => s
  | t :: rest =>
    match get_available_nodes_for_step s t.step t.task_type with
    | [] => s
    | selected :: _ =>
      match assign_task selected t now with
      | some p => { s with nodes := setNode s.nodes p.1, task_queue := rest }
      | none => s

/-- Tail of `NodeManager._execute_task` (src/node_manager.py:320-338) for the
normal path: `node.complete_task(...)` on the slot occupant followed by
`completed_tasks.append`. -/
def complete_step (s : MState) (node_id : String) (tt : TaskType)
    (result error : Option String) (now : Int) : MState :=
  match lookupNode s.nodes node_id with
  | none => s
  | some n =>
    match slotOf n tt with
    | none => s
    | some t =>
      let p := complete_task n t result error now
      { s with nodes := setNode s.nodes p.1
               completed_tasks := s.completed_tasks ++ [p.2] }

/-- The offline failure stamp of `_heartbeat_monitor`
(src/node_manager.py:369-374). -/
def failOffline (node_id : String) (t : PTask) : PTask :=
  { t with
    status := TaskStatus.failed
    error := some ("Node " ++ node_id ++ " went offline") }

/-- Tasks failed when a node goes offline, in `current_tasks` iteration
order (`text_llm` then `comfyui`). -/
def failedOfflineTasks (n : PNode) : List PTask :=
  (slotOf n TaskType.text_llm).toList.map (failOffline n.node_id)
    ++ (slotOf n TaskType.comfyui).toList.map (failOffline n.node_id)

/-- A node after the offline transition: status OFFLINE, both slots clear. -/
def offlineNode (n : PNode) : PNode :=
  { n with
    status := NodeStatus.offline
    current_text_llm := none
    current_comfyui := none }

/-- Per-node body of one `_heartbeat_monitor` pass
(src/node_manager.py:354-383): a stale, not-yet-OFFLINE node goes OFFLINE
with its slot tasks failed; a fresh node that answers the ping refreshes its
heartbeat and, if it was OFFLINE, recomputes its status.  `ping` stands for
the network result of `_ping_node`. -/
def heartbeat_node (now timeout : Int) (ping : String → Bool) (n : PNode) :
    PNode × List PTask :=
  if timeout < now - n.last_heartbeat then
    if n.status == NodeStatus.offline then (n, [])
    else (offlineNode n, failedOfflineTasks n)
  else if ping n.node_id then
    if n.status == NodeStatus.offline then
      (update_status { n with last_heartbeat := now }, [])
    else ({ n with last_heartbeat := now }, [])
  else (n, [])

/-- One pass of `_heartbeat_monitor` over all nodes; failed tasks are
appended to `completed_tasks` in node order. -/
def heartbeat_pass (now timeout : Int) (ping : String → Bool) (s : MState) : MState :=
  let results := s.nodes.map (heartbeat_node now timeout ping)
  { s with
    nodes := results.map (fun p => p.1)
    completed_tasks := s.completed_tasks ++ (results.map (fun p => p.2)).flatten }

/-- The atomic state transitions of the node manager: registration,
removal, step (de)assignment, task submission, one scheduler iteration, one
task completion, and one heartbeat pass. -/
inductive MStep : MState → MState → Prop where
  | add (s : MState) (node_id host : String) (caps : List NodeType) (now : Int) :
      MStep s (add_node s node_id host caps now)
  | remove (s : MState) (node_id : String) : MStep s (remove_node s node_id)
  | assignStep (s : MState) (stepName node_id : String) :
      MStep s (assign_node_to_step s stepName node_id)
  | unassignStep (s : MState) (stepName node_id : String) :
      MStep s (unassign_node_from_step s stepName node_id)
  | submit (s : MState) (task_id : String) (tt : TaskType) (stepName : String)
      (priority now : Int) (s' : MState) (t : PTask)
      (h : submit_task s task_id tt stepName priority now = some (s', t)) : MStep s s'
  | sched (s : MState) (now : Int) : MStep s (process_queue_step s now)
  | complete (s : MState) (node_id : String) (tt : TaskType)
      (result error : Option String) (now : Int) :
      MStep s (complete_step s node_id tt result error now)
  | heartbeat (s : MState) (now timeout : Int) (ping : String → Bool) :
      MStep s (heartbeat_pass now timeout ping s)

/-- States reachable from a fresh `NodeManager`. -/
inductive MReachable : MState → Prop where
  | init : MReachable initMState
  | step (s s' : MState) (hs : MReachable s) (h : MStep s s') : MReachable s'

/-! ### C10: `ProcessingNode.complete_task` -/

theorem slotOf_update_status (n : PNode) (tt : TaskType) :
    slotOf (update_status n) tt = slotOf n tt := by
  cases tt <;> rfl

theorem slotOf_setAvg (n : PNode) (tt tt2 : TaskType) (v : Rat) :
    slotOf (setAvg n tt2 v) tt = slotOf n tt := by
  cases tt <;> cases tt2 <;> rfl

theorem slotOf_setSlot_self (n : PNode) (tt : TaskType) (v : Option PTask) :
    slotOf (setSlot n tt v) tt = v := by
  cases tt <;> rfl

theorem slotOf_setSlot_ne (n : PNode) {tt tt2 : TaskType} (h : tt2 ≠ tt)
    (v : Option PTask) : slotOf (setSlot n tt v) tt2 = slotOf n tt2 := by
  cases tt <;> cases tt2 <;> first
    | rfl
    | exact absurd rfl h

theorem total_completed_update_status (n : PNode) :
    (update_status n).total_completed = n.total_completed := rfl

theorem total_completed_setAvg (n : PNode) (tt : TaskType) (v : Rat) :
    (setAvg n tt v).total_completed = n.total_completed := by
  cases tt <;> rfl

theorem total_completed_setSlot (n : PNode) (tt : TaskType) (v : Option PTask) :
    (setSlot n tt v).total_completed = n.total_completed := by
  cases tt <;> rfl

/-- The node produced by the EMA step of `complete_task`, isolated so its
slot and counter projections can be reasoned about uniformly. -/
def emaStep (n1 : PNode) (t : PTask) (now : Int) : PNode :=
  match t.started_at with
  | some st =>
    let pt : Rat := ((now - st : Int) : Rat)
    match avgOf n1 t.task_type with
    | none => setAvg n1 t.task_type pt
    | some a => setAvg n1 t.task_type ((4 / 5 : Rat) * a + (1 / 5 : Rat) * pt)
  | none => n1

theorem slotOf_emaStep (n1 : PNode) (t : PTask) (now : Int) (tt : TaskType) :
    slotOf (emaStep n1 t now) tt = slotOf n1 tt := by
  unfold emaStep
  rcases t.started_at with _ | st
  · rfl
  · rcases avgOf n1 t.task_type with _ | a <;> simp [slotOf_setAvg]

theorem total_completed_emaStep (n1 : PNode) (t : PTask) (now : Int) :
    (emaStep n1 t now).total_completed = n1.total_completed := by
  unfold emaStep
  rcases t.started_at with _ | st
  · rfl
  · rcases avgOf n1 t.task_type with _ | a <;> simp [total_completed_setAvg]

/-- `complete_task` written through `emaStep`; equal by definition. -/
theorem complete_task_eq (n : PNode) (t : PTask) (result error : Option String)
    (now : Int) :
    complete_task n t result error now =
      (if slotOf n t.task_type == some t then
        (update_status
          (if truthyResult result then
            { emaStep (setSlot n t.task_type none) t now with
              total_completed := (emaStep (setSlot n t.task_type none) t now).total_completed + 1 }
          else emaStep (setSlot n t.task_type none) t now),
         { t with
           completed_at := some now
           status := if truthyResult result then TaskStatus.completed else TaskStatus.failed
           result := result
           error := error })
      else (n, t)) := by
  unfold complete_task emaStep
  rfl

/-- C10: completing a task that is not the occupant of its type's slot
changes nothing; completing the occupant clears exactly that slot, marks the
task `completed` exactly when the supplied result is truthy (None or the
empty string give `failed`), stores the result and error verbatim, and bumps
`total_completed` only in the truthy case. -/
theorem complete_task_noop_or_terminal (n : PNode) (t : PTask)
    (result error : Option String) (now : Int) :
    (slotOf n t.task_type ≠ some t → complete_task n t result error now = (n, t)) ∧
    (slotOf n t.task_type = some t →
      slotOf (complete_task n t result error now).1 t.task_type = none ∧
      (∀ tt, tt ≠ t.task_type →
        slotOf (complete_task n t result error now).1 tt = slotOf n tt) ∧
      (complete_task n t result error now).2.status
        = (if truthyResult result = true then TaskStatus.completed else TaskStatus.failed) ∧
      (complete_task n t result error now).2.result = result ∧
      (complete_task n t result error now).2.error = error ∧
      (complete_task n t result error now).1.total_completed
        = n.total_completed + (if truthyResult result = true then 1 else 0)) := by
  constructor
  · intro h
    have hb : (slotOf n t.task_type == some t) = false := by
      simpa using h
    rw [complete_task_eq, if_neg (by simp [hb])]
  · intro h
    have hb : (slotOf n t.task_type == some t) = true := by
      simp [h]
    rw [complete_task_eq, if_pos hb]
    by_cases htr : truthyResult result = true
    · refine ⟨?_, ?_, by simp [htr], rfl, rfl, ?_⟩
      · rw [if_pos htr, slotOf_update_status]
        show slotOf { emaStep (setSlot n t.task_type none) t now with
          total_completed := _ } t.task_type = none
        have : ∀ (m : PNode) (k : Nat) (tt : TaskType),
            slotOf { m with total_completed := k } tt = slotOf m tt := by
          intro m k tt; cases tt <;> rfl
        rw [this, slotOf_emaStep, slotOf_setSlot_self]
      · intro tt htt
        rw [if_pos htr, slotOf_update_status]
        have : ∀ (m : PNode) (k : Nat) (tt : TaskType),
            slotOf { m with total_completed := k } tt = slotOf m tt := by
          intro m k tt; cases tt <;> rfl
        rw [this, slotOf_emaStep, slotOf_setSlot_ne n htt]
      · rw [if_pos htr, total_completed_update_status]
        show (emaStep (setSlot n t.task_type none) t now).total_completed + 1 = _
        rw [total_completed_emaStep, total_completed_setSlot, if_pos htr]
    · have htr' : truthyResult result = false := by
        simpa using htr
      refine ⟨?_, ?_, by simp [htr'], rfl, rfl, ?_⟩
      · rw [if_neg (by simp [htr']), slotOf_update_status, slotOf_emaStep, slotOf_setSlot_self]
      · intro tt htt
        rw [if_neg (by simp [htr']), slotOf_update_status, slotOf_emaStep,
          slotOf_setSlot_ne n htt]
      · rw [if_neg (by simp [htr']), total_completed_update_status, total_completed_emaStep,
          total_completed_setSlot, if_neg (by simp [htr'])]
        simp

/-- A node holding a text task, used to instantiate the C10 theorem. -/
def witnessTaskC10 : PTask :=
  { newProcessingTask "t10" TaskType.text_llm "story" 5 0 with
    assigned_node := some "A"
    started_at := some 0
    status := TaskStatus.processing }

/-- The node occupied by `witnessTaskC10`. -/
def witnessNodeC10 : PNode :=
  { newProcessingNode "A" "host" [NodeType.text_llm] 0 with
    status := NodeStatus.busy_text
    current_text_llm := some witnessTaskC10 }

/-- Concrete instantiation of `complete_task_noop_or_terminal`: completing
the slot occupant with result `None` clears the slot and records `failed`
without bumping the counter. -/
theorem complete_task_noop_or_terminal_witness :
    slotOf (complete_task witnessNodeC10 witnessTaskC10 none none 7).1
        witnessTaskC10.task_type = none ∧
    slotOf (complete_task witnessNodeC10 witnessTaskC10 none none 7).1 TaskType.comfyui
      = slotOf witnessNodeC10 TaskType.comfyui ∧
    (complete_task witnessNodeC10 witnessTaskC10 none none 7).2.status
      = (if truthyResult none = true then TaskStatus.completed else TaskStatus.failed) ∧
    (complete_task witnessNodeC10 witnessTaskC10 none none 7).2.result = none ∧
    (complete_task witnessNodeC10 witnessTaskC10 none none 7).2.error = none ∧
    (complete_task witnessNodeC10 witnessTaskC10 none none 7).1.total_completed
      = witnessNodeC10.total_completed + (if truthyResult none = true then 1 else 0) := by
  obtain ⟨h1, h2, h3, h4, h5, h6⟩ :=
    (complete_task_noop_or_terminal witnessNodeC10 witnessTaskC10 none none 7).2 (by decide)
  exact ⟨h1, h2 TaskType.comfyui (by decide), h3, h4, h5, h6⟩

/-! ### C5: heartbeat timeout -/

theorem heartbeat_node_fresh_noping (now timeout : Int) (ping : String → Bool)
    (n : PNode) (hfresh : now - n.last_heartbeat ≤ timeout)
    (hping : ping n.node_id = false) :
    heartbeat_node now timeout ping n = (n, []) := by
  unfold heartbeat_node
  rw [if_neg (by omega), if_neg (by simp [hping])]

theorem heartbeat_node_stale_online (now timeout : Int) (ping : String → Bool)
    (n : PNode) (hstale : timeout < now - n.last_heartbeat)
    (hon : n.status ≠ NodeStatus.offline) :
    heartbeat_node now timeout ping n = (offlineNode n, failedOfflineTasks n) := by
  unfold heartbeat_node
  rw [if_pos hstale, if_neg (by simp [hon])]

theorem map_fst_pair_nil (l : List PNode) :
    (l.map (fun Y => (Y, ([] : List PTask)))).map (fun p => p.1) = l := by
  induction l with
  | nil => rfl
  | cons a t ih => simp [ih]

theorem map_snd_pair_nil (l : List PNode) :
    ((l.map (fun Y => (Y, ([] : List PTask)))).map (fun p => p.2)).flatten = [] := by
  induction l with
  | nil => rfl
  | cons a t ih => simp [ih]

/-- C5: in a heartbeat pass where exactly node `X` is stale (every other
node is fresh and its ping fails, so it is untouched), `X` — and only `X` —
transitions to OFFLINE with both slots cleared, exactly the tasks that
occupied its slots are appended to the completed list marked FAILED with the
offline reason, and every other node, every queued task and every previously
completed task is unchanged. -/
theorem heartbeat_timeout_fails_exactly_stale_node (s : MState)
    (pre post : List PNode) (X : PNode) (now timeout : Int) (ping : String → Bool)
    (hnodes : s.nodes = pre ++ X :: post)
    (hstale : timeout < now - X.last_heartbeat)
    (hon : X.status ≠ NodeStatus.offline)
    (hothers : ∀ Y, Y ∈ pre ∨ Y ∈ post →
      now - Y.last_heartbeat ≤ timeout ∧ ping Y.node_id = false) :
    (heartbeat_pass now timeout ping s).nodes = pre ++ offlineNode X :: post ∧
    (heartbeat_pass now timeout ping s).completed_tasks
      = s.completed_tasks ++ failedOfflineTasks X ∧
    (heartbeat_pass now timeout ping s).task_queue = s.task_queue ∧
    (offlineNode X).status = NodeStatus.offline ∧
    slotOf (offlineNode X) TaskType.text_llm = none ∧
    slotOf (offlineNode X) TaskType.comfyui = none ∧
    (∀ u ∈ failedOfflineTasks X, u.status = TaskStatus.failed ∧
      u.error = some ("Node " ++ X.node_id ++ " went offline")) ∧
    failedOfflineTasks X
      = (slotOf X TaskType.text_llm).toList.map (failOffline X.node_id)
        ++ (slotOf X TaskType.comfyui).toList.map (failOffline X.node_id) := by
  have hpre : ∀ Y ∈ pre, heartbeat_node now timeout ping Y = (Y, ([] : List PTask)) :=
    fun Y hY => heartbeat_node_fresh_noping now timeout ping Y
      (hothers Y (Or.inl hY)).1 (hothers Y (Or.inl hY)).2
  have hpost : ∀ Y ∈ post, heartbeat_node now timeout ping Y = (Y, ([] : List PTask)) :=
    fun Y hY => heartbeat_node_fresh_noping now timeout ping Y
      (hothers Y (Or.inr hY)).1 (hothers Y (Or.inr hY)).2
  have hres : s.nodes.map (heartbeat_node now timeout ping)
      = pre.map (fun Y => (Y, ([] : List PTask)))
        ++ (offlineNode X, failedOfflineTasks X)
          :: post.map (fun Y => (Y, ([] : List PTask))) := by
    rw [hnodes, List.map_append, List.map_cons,
      heartbeat_node_stale_online now timeout ping X hstale hon,
      List.map_congr_left hpre, List.map_congr_left hpost]
  refine ⟨?_, ?_, rfl, rfl, rfl, rfl, ?_, rfl⟩
  · show (s.nodes.map (heartbeat_node now timeout ping)).map (fun p => p.1) = _
    rw [hres, List.map_append, List.map_cons, map_fst_pair_nil, map_fst_pair_nil]
  · show s.completed_tasks
        ++ ((s.nodes.map (heartbeat_node now timeout ping)).map (fun p => p.2)).flatten
      = _
    rw [hres, List.map_append, List.map_cons, List.flatten_append, List.flatten_cons,
      map_snd_pair_nil, map_snd_pair_nil]
    simp
  · intro u hu
    unfold failedOfflineTasks at hu
    rcases List.mem_append.1 hu with h | h <;>
      rcases List.mem_map.1 h with ⟨t0, ht0, rfl⟩ <;>
      exact ⟨rfl, rfl⟩

/-- The in-flight text task of the C5 witness scenario. -/
def witnessTaskC5 : PTask :=
  { newProcessingTask "t5" TaskType.text_llm "story" 5 0 with
    assigned_node := some "B"
    started_at := some 0
    status := TaskStatus.processing }

/-- The stale node of the C5 witness scenario, holding `witnessTaskC5`. -/
def witnessStaleC5 : PNode :=
  { newProcessingNode "B" "hostB" [NodeType.hybrid] 0 with
    status := NodeStatus.busy_text
    current_text_llm := some witnessTaskC5 }

/-- The fresh node of the C5 witness scenario. -/
def witnessFreshC5 : PNode := newProcessingNode "A" "hostA" [NodeType.text_llm] 200

/-- The two-node manager state of the C5 witness scenario. -/
def witnessStateC5 : MState := { initMState with nodes := [witnessFreshC5, witnessStaleC5] }

/-- Concrete instantiation of `heartbeat_timeout_fails_exactly_stale_node`
at time 200 with timeout 120: node B (last heartbeat 0) goes OFFLINE and its
text task fails; node A (last heartbeat 200) is untouched. -/
theorem heartbeat_timeout_fails_exactly_stale_node_witness :
    (heartbeat_pass 200 120 (fun _ => false) witnessStateC5).nodes
      = [witnessFreshC5] ++ offlineNode witnessStaleC5 :: [] ∧
    (heartbeat_pass 200 120 (fun _ => false) witnessStateC5).completed_tasks
      = witnessStateC5.completed_tasks ++ failedOfflineTasks witnessStaleC5 ∧
    (heartbeat_pass 200 120 (fun _ => false) witnessStateC5).task_queue
      = witnessStateC5.task_queue ∧
    (offlineNode witnessStaleC5).status = NodeStatus.offline ∧
    slotOf (offlineNode witnessStaleC5) TaskType.text_llm = none ∧
    slotOf (offlineNode witnessStaleC5) TaskType.comfyui = none ∧
    failedOfflineTasks witnessStaleC5
      = (slotOf witnessStaleC5 TaskType.text_llm).toList.map
          (failOffline witnessStaleC5.node_id)
        ++ (slotOf witnessStaleC5 TaskType.comfyui).toList.map
          (failOffline witnessStaleC5.node_id) := by
  obtain ⟨h1, h2, h3, h4, h5, h6, h7, h8⟩ :=
    heartbeat_timeout_fails_exactly_stale_node witnessStateC5 [witnessFreshC5] []
      witnessStaleC5 200 120 (fun _ => false) (by decide) (by decide) (by decide)
      (by
        intro Y hY
        rcases hY with h | h
        · have hYe : Y = witnessFreshC5 := by simpa using h
          rw [hYe]
          exact ⟨by decide, rfl⟩
        · exact absurd h (List.not_mem_nil Y))
  exact ⟨h1, h2, h3, h4, h5, h6, h8⟩

/-! ### C4: reachable states only hold tasks on capable nodes -/

/-- The C4 invariant for one node: every slot occupant is of the slot's task
type, and the node advertises the capability for it. -/
def capSlotsOk (n : PNode) : Prop :=
  ∀ (tt : TaskType) (t : PTask), slotOf n tt = some t →
    hasCapabilityFor n tt = true ∧ t.task_type = tt

theorem hasCapabilityFor_congr {m n : PNode} (h : m.capabilities = n.capabilities)
    (tt : TaskType) : hasCapabilityFor m tt = hasCapabilityFor n tt := by
  cases tt <;> simp [hasCapabilityFor, h]

theorem capSlotsOk_congr {m n : PNode} (hslots : ∀ tt, slotOf m tt = slotOf n tt)
    (hcaps : m.capabilities = n.capabilities) (h : capSlotsOk n) : capSlotsOk m := by
  intro tt t ht
  rcases h tt t (by rw [← hslots tt]; exact ht) with ⟨h1, h2⟩
  exact ⟨by rw [hasCapabilityFor_congr hcaps]; exact h1, h2⟩

theorem capabilities_setSlot (n : PNode) (tt : TaskType) (v : Option PTask) :
    (setSlot n tt v).capabilities = n.capabilities := by
  cases tt <;> rfl

theorem capabilities_setAvg (n : PNode) (tt : TaskType) (v : Rat) :
    (setAvg n tt v).capabilities = n.capabilities := by
  cases tt <;> rfl

theorem capabilities_emaStep (n1 : PNode) (t : PTask) (now : Int) :
    (emaStep n1 t now).capabilities = n1.capabilities := by
  unfold emaStep
  rcases t.started_at with _ | st
  · rfl
  · rcases avgOf n1 t.task_type with _ | a <;> simp [capabilities_setAvg]

theorem capSlotsOk_new (node_id host : String) (caps : List NodeType) (now : Int) :
    capSlotsOk (newProcessingNode node_id host caps now) := by
  intro tt t ht
  cases tt <;> exact Option.noConfusion ht

theorem capSlotsOk_update_status {n : PNode} (h : capSlotsOk n) :
    capSlotsOk (update_status n) :=
  capSlotsOk_congr (fun tt => slotOf_update_status n tt) rfl h

theorem capSlotsOk_setSlot_none {n : PNode} (tt : TaskType) (h : capSlotsOk n) :
    capSlotsOk (setSlot n tt none) := by
  intro tt2 t ht
  by_cases he : tt2 = tt
  · rw [he, slotOf_setSlot_self] at ht
    exact Option.noConfusion ht
  · rw [slotOf_setSlot_ne n he] at ht
    rcases h tt2 t ht with ⟨h1, h2⟩
    exact ⟨by rw [hasCapabilityFor_congr (capabilities_setSlot n tt none)]; exact h1, h2⟩

theorem capSlotsOk_setSlot_some {n : PNode} {tt : TaskType} {u : PTask}
    (h : capSlotsOk n) (hcap : hasCapabilityFor n tt = true) (hu : u.task_type = tt) :
    capSlotsOk (setSlot n tt (some u)) := by
  intro tt2 t ht
  by_cases he : tt2 = tt
  · subst he
    rw [slotOf_setSlot_self] at ht
    obtain rfl : u = t := by simpa using ht
    exact ⟨by rw [hasCapabilityFor_congr (capabilities_setSlot n tt2 (some u))]; exact hcap, hu⟩
  · rw [slotOf_setSlot_ne n he] at ht
    rcases h tt2 t ht with ⟨h1, h2⟩
    exact ⟨by rw [hasCapabilityFor_congr (capabilities_setSlot n tt (some u))]; exact h1, h2⟩

theorem assign_task_isSome_can_handle {n : PNode} {t : PTask} {now : Int}
    (h : (assign_task n t now).isSome = true) :
    can_handle_task n t.task_type = true := by
  unfold assign_task at h
  by_cases hc : can_handle_task n t.task_type = true
  · exact hc
  · rw [if_neg hc] at h
    simp at h

theorem capSlotsOk_assign {n n' : PNode} {t t' : PTask} {now : Int}
    (h : capSlotsOk n) (ha : assign_task n t now = some (n', t')) : capSlotsOk n' := by
  unfold assign_task at ha
  by_cases hc : can_handle_task n t.task_type = true
  · rw [if_pos hc] at ha
    simp only [Option.some.injEq, Prod.mk.injEq] at ha
    rw [← ha.1]
    have hcap : hasCapabilityFor n t.task_type = true := by
      unfold can_handle_task at hc
      simp only [Bool.and_eq_true] at hc
      exact hc.1
    exact capSlotsOk_update_status (capSlotsOk_setSlot_some h hcap rfl)
  · rw [if_neg hc] at ha
    cases ha

theorem capSlotsOk_complete_task {n : PNode} {t : PTask} {result error : Option String}
    {now : Int} (h : capSlotsOk n) : capSlotsOk (complete_task n t result error now).1 := by
  rw [complete_task_eq]
  by_cases hb : (slotOf n t.task_type == some t) = true
  · rw [if_pos hb]
    have hema : capSlotsOk (emaStep (setSlot n t.task_type none) t now) :=
      capSlotsOk_congr (fun tt => slotOf_emaStep (setSlot n t.task_type none) t now tt)
        (capabilities_emaStep (setSlot n t.task_type none) t now)
        (capSlotsOk_setSlot_none t.task_type h)
    by_cases htr : truthyResult result = true
    · rw [if_pos htr]
      refine capSlotsOk_update_status (capSlotsOk_congr (fun tt => ?_) rfl hema)
      cases tt <;> rfl
    · rw [if_neg htr]
      exact capSlotsOk_update_status hema
  · rw [if_neg hb]
    exact h

theorem capSlotsOk_heartbeat_node {now timeout : Int} {ping : String → Bool} {n : PNode}
    (h : capSlotsOk n) : capSlotsOk (heartbeat_node now timeout ping n).1 := by
  unfold heartbeat_node
  by_cases h1 : timeout < now - n.last_heartbeat
  · rw [if_pos h1]
    by_cases h2 : (n.status == NodeStatus.offline) = true
    · rw [if_pos h2]
      exact h
    · rw [if_neg h2]
      intro tt t ht
      cases tt <;> exact Option.noConfusion ht
  · rw [if_neg h1]
    by_cases h3 : ping n.node_id = true
    · rw [if_pos h3]
      by_cases h2 : (n.status == NodeStatus.offline) = true
      · rw [if_pos h2]
        exact capSlotsOk_update_status (capSlotsOk_congr (fun tt => by cases tt <;> rfl) rfl h)
      · rw [if_neg h2]
        exact capSlotsOk_congr (fun tt => by cases tt <;> rfl) rfl h
    · rw [if_neg h3]
      exact h

theorem mem_setNode {ns : List PNode} {n m : PNode} (h : m ∈ setNode ns n) :
    m ∈ ns ∨ m = n := by
  unfold setNode at h
  rcases List.mem_map.1 h with ⟨x, hx, heq⟩
  by_cases hc : (x.node_id == n.node_id) = true
  · rw [if_pos hc] at heq
    exact Or.inr heq.symm
  · rw [if_neg hc] at heq
    exact Or.inl (heq ▸ hx)

theorem mem_insertNode {ns : List PNode} {n m : PNode} (h : m ∈ insertNode ns n) :
    m ∈ ns ∨ m = n := by
  unfold insertNode at h
  by_cases hc : ns.any (fun p => p.node_id == n.node_id) = true
  · rw [if_pos hc] at h
    exact mem_setNode h
  · rw [if_neg hc] at h
    rcases List.mem_append.1 h with h1 | h1
    · exact Or.inl h1
    · exact Or.inr (by simpa using h1)

theorem mem_insertByLoad {m n : PNode} {l : List PNode} (h : m ∈ insertByLoad n l) :
    m = n ∨ m ∈ l := by
  induction l with
  | nil => exact Or.inl (by simpa [insertByLoad] using h)
  | cons x xs ih =>
    unfold insertByLoad at h
    by_cases hc : calculate_load_score n ≤ calculate_load_score x
    · rw [if_pos hc] at h
      rcases List.mem_cons.1 h with h1 | h1
      · exact Or.inl h1
      · exact Or.inr h1
    · rw [if_neg hc] at h
      rcases List.mem_cons.1 h with h1 | h1
      · exact Or.inr (List.mem_cons.2 (Or.inl h1))
      · rcases ih h1 with h2 | h2
        · exact Or.inl h2
        · exact Or.inr (List.mem_cons.2 (Or.inr h2))

theorem mem_sortByLoad {m : PNode} {l : List PNode} (h : m ∈ sortByLoad l) : m ∈ l := by
  induction l with
  | nil => simp [sortByLoad] at h
  | cons x xs ih =>
    unfold sortByLoad at h
    rw [List.foldr_cons] at h
    rcases mem_insertByLoad h with h1 | h1
    · exact List.mem_cons.2 (Or.inl h1)
    · exact List.mem_cons.2 (Or.inr (ih h1))

theorem mem_get_available {s : MState} {stepName : String} {tt : TaskType} {m : PNode}
    (h : m ∈ get_available_nodes_for_step s stepName tt) :
    m ∈ s.nodes ∧ can_handle_task m tt = true := by
  unfold get_available_nodes_for_step at h
  have h1 := mem_sortByLoad h
  rcases List.mem_filterMap.1 h1 with ⟨id, hid, hsome⟩
  split at hsome
  next n heq =>
    split at hsome
    next hcond =>
      obtain rfl : n = m := by simpa using hsome
      refine ⟨List.mem_of_find?_eq_some heq, ?_⟩
      simp only [Bool.and_eq_true] at hcond
      exact hcond.2
    next hcond => simp at hsome
  next heq => simp at hsome

theorem submit_task_nodes {s s' : MState} {task_id : String} {tt : TaskType}
    {stepName : String} {priority now : Int} {t : PTask}
    (h : submit_task s task_id tt stepName priority now = some (s', t)) :
    s'.nodes = s.nodes := by
  unfold submit_task at h
  by_cases hf : s.max_queue_size ≤ s.task_queue.length
  · rw [if_pos hf] at h
    cases h
  · rw [if_neg hf] at h
    simp only [Option.some.injEq, Prod.mk.injEq] at h
    rw [← h.1]

theorem nodes_assign_node_to_step (s : MState) (a b : String) :
    (assign_node_to_step s a b).nodes = s.nodes := by
  unfold assign_node_to_step
  by_cases h1 : (lookupNode s.nodes b).isSome = true
  · rw [if_pos h1]
    show (if b ∈ (lookupAssoc s.step_assignments a).getD [] then s else _).nodes = s.nodes
    by_cases h2 : b ∈ (lookupAssoc s.step_assignments a).getD []
    · rw [if_pos h2]
    · rw [if_neg h2]
  · rw [if_neg h1]

theorem nodes_unassign_node_from_step (s : MState) (a b : String) :
    (unassign_node_from_step s a b).nodes = s.nodes := by
  unfold unassign_node_from_step
  split
  · rfl
  · split <;> rfl

theorem capSlotsOk_process_queue_step {s : MState} (now : Int)
    (ih : ∀ n ∈ s.nodes, capSlotsOk n) :
    ∀ n ∈ (process_queue_step s now).nodes, capSlotsOk n := by
  unfold process_queue_step
  split
  · exact ih
  next t rest heq =>
    split
    · exact ih
    next sel others hav =>
      split
      next p hass =>
        obtain ⟨n2, t2⟩ := p
        intro n hn
        rcases mem_setNode hn with h1 | h1
        · exact ih n h1
        · rw [h1]
          have hmem : sel ∈ get_available_nodes_for_step s t.step t.task_type := by
            rw [hav]
            exact List.mem_cons_self sel others
          exact capSlotsOk_assign (ih sel (mem_get_available hmem).1) hass
      next hass => exact ih

theorem capSlotsOk_complete_step {s : MState} (node_id : String) (tt : TaskType)
    (result error : Option String) (now : Int)
    (ih : ∀ n ∈ s.nodes, capSlotsOk n) :
    ∀ n ∈ (complete_step s node_id tt result error now).nodes, capSlotsOk n := by
  unfold complete_step
  split
  · exact ih
  next m heq =>
    split
    · exact ih
    next t0 hslot =>
      intro n hn
      rcases mem_setNode hn with h1 | h1
      · exact ih n h1
      · rw [h1]
        exact capSlotsOk_complete_task (ih m (List.mem_of_find?_eq_some heq))

/-- C4: in every reachable manager state, every node's slot occupants are
tasks of the slot's type for which the node advertises the capability
(TEXT/HYBRID for text, COMFYUI/HYBRID for media), and `assign_task` only
ever succeeds on a node that can handle the task's type with a free slot. -/
theorem tasks_only_on_capable_nodes :
    (∀ s, MReachable s → ∀ n ∈ s.nodes, capSlotsOk n) ∧
    (∀ (n : PNode) (t : PTask) (now : Int),
      (assign_task n t now).isSome = true → can_handle_task n t.task_type = true) := by
  constructor
  · intro s hs
    induction hs with
    | init =>
      intro n hn
      exact absurd hn (List.not_mem_nil n)
    | step s s' hs hstep ih =>
      cases hstep with
      | add node_id host caps now =>
        intro n hn
        rcases mem_insertNode hn with h1 | h1
        · exact ih n h1
        · rw [h1]
          exact capSlotsOk_new node_id host caps now
      | remove node_id =>
        intro n hn
        unfold remove_node at hn
        rcases hlk : lookupNode s.nodes node_id with _ | m
        · rw [hlk] at hn
          exact ih n hn
        · rw [hlk] at hn
          exact ih n (List.mem_of_mem_filter hn)
      | assignStep stepName node_id =>
        intro n hn
        rw [nodes_assign_node_to_step] at hn
        exact ih n hn
      | unassignStep stepName node_id =>
        intro n hn
        rw [nodes_unassign_node_from_step] at hn
        exact ih n hn
      | submit task_id tt stepName priority now s2 t h =>
        intro n hn
        rw [submit_task_nodes h] at hn
        exact ih n hn
      | sched now =>
        exact capSlotsOk_process_queue_step now ih
      | complete node_id tt result error now =>
        exact capSlotsOk_complete_step node_id tt result error now ih
      | heartbeat now timeout ping =>
        intro n hn
        have hn' : n ∈ (s.nodes.map (heartbeat_node now timeout ping)).map
            (fun p => p.1) := hn
        rcases List.mem_map.1 hn' with ⟨pr, hpr, hpr2⟩
        rcases List.mem_map.1 hpr with ⟨m, hm, hm2⟩
        rw [← hpr2, ← hm2]
        exact capSlotsOk_heartbeat_node (ih m hm)
  · intro n t now h
    exact assign_task_isSome_can_handle h

/-- The task submitted in the C4 witness scenario. -/
def witnessTaskC4 : PTask := newProcessingTask "t4" TaskType.text_llm "story" 5 0

/-- C4 witness state 1: one TEXT node registered. -/
def witnessS1C4 : MState := add_node initMState "A" "hostA" [NodeType.text_llm] 0

/-- C4 witness state 2: the TEXT task submitted. -/
def witnessS2C4 : MState := { witnessS1C4 with task_queue := [witnessTaskC4] }

/-- C4 witness state 3: one scheduler iteration assigns the task. -/
def witnessS3C4 : MState := process_queue_step witnessS2C4 0

/-- The node of the C4 witness scenario after the assignment. -/
def witnessNodeC4 : PNode :=
  { node_id := "A"
    host := "hostA"
    capabilities := [NodeType.text_llm]
    status := NodeStatus.busy_text
    current_text_llm := some { witnessTaskC4 with
      assigned_node := some "A"
      started_at := some 0
      status := TaskStatus.processing }
    current_comfyui := none
    last_heartbeat := 0
    total_completed := 0
    avg_text_llm := none
    avg_comfyui := none }

/-- Concrete instantiation of `tasks_only_on_capable_nodes`: after register,
submit and one scheduler iteration, the busy node satisfies the invariant. -/
theorem tasks_only_on_capable_nodes_witness : capSlotsOk witnessNodeC4 :=
  tasks_only_on_capable_nodes.1 witnessS3C4
    (MReachable.step witnessS2C4 witnessS3C4
      (MReachable.step witnessS1C4 witnessS2C4
        (MReachable.step initMState witnessS1C4 MReachable.init
          (MStep.add initMState "A" "hostA" [NodeType.text_llm] 0))
        (MStep.submit witnessS1C4 "t4" TaskType.text_llm "story" 5 0
          witnessS2C4 witnessTaskC4 (by decide)))
      (MStep.sched witnessS2C4 0))
    witnessNodeC4 (by decide)

/-! ### Stage resource router (src/ollama_manager.py) and
endpoint discovery cache (src/network_discovery.py) -/

/-- One cached Ollama instance entry (the dict values built by
`add_localhost_connection` and `fast_scan`); only the fields the router and
discovery logic consult are kept. -/
structure OInstance where
  models : List String
  status : String
deriving DecidableEq, Repr

/-- `OllamaManager` state: the instance cache, the per-step model
assignments and the legacy `config['selected_model']`. -/
structure OllamaState where
  ollama_instances : List (String × OInstance)
  step_model_assignments : List (String × (Option String × Option String))
  selected_model : Option String
deriving DecidableEq, Repr

/-- `OllamaManager.get_step_model` (src/ollama_manager.py:371-373):
`self.step_model_assignments.get(step, (None, None))`. -/
def get_step_model (s : OllamaState) (step : String) : Option String × Option String :=
  (lookupAssoc s.step_model_assignments step).getD (none, none)

/-- Python truthiness of an optional string (`None` and `''` are falsy). -/
def truthyStr : Option String → Bool
  | none => false
  | some v => !(v == "")

/-- `OllamaManager.set_step_model` (src/ollama_manager.py:355-369): reject
an unknown instance key or a model absent from that instance's model list by
returning `False` with nothing changed; otherwise store the assignment,
persist, and return `True`. -/
def set_step_model (s : OllamaState) (step instance_key model_name : String) :
    Bool × OllamaState :=
  match lookupAssoc s.ollama_instances instance_key with
  | none => (false, s)
  | some inst =>
    if model_name ∈ inst.models then
      (true,
       { s with step_model_assignments :=
           setAssoc s.step_model_assignments step (some instance_key, some model_name) })
    else (false, s)

/-- The exceptions raised by the resolution prefix of
`OllamaManager.generate`. -/
inductive ResolveError where
  | noModelAssigned (step : String)
  | instanceUnavailable (instance_key : String)
  | modelUnavailable (model_name instance_key : String)
deriving DecidableEq, Repr

/-- The assignment/fallback choice of `OllamaManager.generate`
(src/ollama_manager.py:180-188): read the step assignment; when either half
is falsy, fall back to the legacy `config['selected_model']` on
`localhost:11434`, raising when that too is falsy. -/
def resolve_chosen (s : OllamaState) (step : String) :
    Except ResolveError (String × String) :=
  let p := get_step_model s step
  if truthyStr p.1 && truthyStr p.2 then Except.ok (p.1.getD "", p.2.getD "")
  else if truthyStr s.selected_model then
    Except.ok ("localhost:11434", s.selected_model.getD "")
  else Except.error (ResolveError.noModelAssigned step)

/-- The validation tail of `OllamaManager.generate`
(src/ollama_manager.py:190-196): raise unless the resolved key is in the
instance cache and the model is in its model list.  The cached entry's
`status` field is never consulted. -/
def resolve_validate (s : OllamaState) :
    Except ResolveError (String × String) → Except ResolveError (String × String)
  | Except.error e => Except.error e
  | Except.ok (instance_key, model_name) =>
    match lookupAssoc s.ollama_instances instance_key with
    | none => Except.error (ResolveError.instanceUnavailable instance_key)
    | some inst =>
      if model_name ∈ inst.models then Except.ok (instance_key, model_name)
      else Except.error (ResolveError.modelUnavailable model_name instance_key)

/-- The full target-resolution prefix of `OllamaManager.generate`
(src/ollama_manager.py:180-196). -/
def resolve_step_target (s : OllamaState) (step : String) :
    Except ResolveError (String × String) :=
  resolve_validate s (resolve_chosen s step)

/-- The cache-merge step of `FastNetworkDiscovery.fast_scan`
(src/network_discovery.py:91-92): `self.ollama_instances.update(found)`
only adds or overwrites entries. -/
def fast_scan_merge (cache found : List (String × OInstance)) :
    List (String × OInstance) :=
  found.foldl (fun c kv => setAssoc c kv.1 kv.2) cache

/-- `FastNetworkDiscovery.refresh_models_for_instance`
(src/network_discovery.py:255-289): an unknown key returns `[]` with the
cache untouched; a successful probe (`probe = some models`) stores the new
model list and marks the entry online; a failed probe (`probe = none`) only
marks the entry offline — it is never removed. -/
def refresh_models_for_instance (cache : List (String × OInstance))
    (instance_key : String) (probe : Option (List String)) :
    List (String × OInstance) × List String :=
  match lookupAssoc cache instance_key with
  | none => (cache, [])
  | some inst =>
    match probe with
    | some models =>
      (setAssoc cache instance_key { inst with models := models, status := "online" },
       models)
    | none =>
      (setAssoc cache instance_key { inst with status := "offline" }, [])

theorem lookupAssoc_setAssoc_self {α : Type} (l : List (String × α)) (k : String) (v : α) :
    lookupAssoc (setAssoc l k v) k = some v := by
  induction l with
  | nil => simp [setAssoc, lookupAssoc, List.find?]
  | cons p t ih =>
    unfold setAssoc
    by_cases hc : (p.1 == k) = true
    · rw [if_pos hc]
      simp [lookupAssoc, List.find?]
    · rw [if_neg hc]
      have hc' : (p.1 == k) = false := by simpa using hc
      simp only [lookupAssoc, List.find?_cons, hc']
      exact ih

theorem lookupAssoc_setAssoc_ne {α : Type} (l : List (String × α)) {k k2 : String}
    (h : k2 ≠ k) (v : α) : lookupAssoc (setAssoc l k v) k2 = lookupAssoc l k2 := by
  induction l with
  | nil =>
    have hk : (k == k2) = false := by
      simp [Ne.symm h]
    simp [setAssoc, lookupAssoc, List.find?, hk]
  | cons p t ih =>
    unfold setAssoc
    by_cases hc : (p.1 == k) = true
    · rw [if_pos hc]
      have hp : p.1 = k := by simpa using hc
      have hk : (k == k2) = false := by
        simp [Ne.symm h]
      have hp2 : (p.1 == k2) = false := by
        rw [hp]
        exact hk
      simp only [lookupAssoc, List.find?_cons, hk, hp2]
    · rw [if_neg hc]
      by_cases hp2 : (p.1 == k2) = true
      · simp only [lookupAssoc, List.find?_cons, hp2]
      · have hp2' : (p.1 == k2) = false := by simpa using hp2
        simp only [lookupAssoc, List.find?_cons, hp2']
        exact ih

theorem lookupAssoc_setAssoc_isSome {α : Type} (l : List (String × α))
    (k k2 : String) (v : α) (h : (lookupAssoc l k2).isSome = true) :
    (lookupAssoc (setAssoc l k v) k2).isSome = true := by
  by_cases he : k2 = k
  · rw [he, lookupAssoc_setAssoc_self]
    rfl
  · rw [lookupAssoc_setAssoc_ne l he]
    exact h

theorem truthyStr_spec {o : Option String} (h : truthyStr o = true) :
    o = some (o.getD "") := by
  cases o with
  | none => cases h
  | some v => rfl

theorem resolve_validate_ok_inv {s : OllamaState} {k m k2 m2 : String}
    (h : resolve_validate s (Except.ok (k, m)) = Except.ok (k2, m2)) :
    k2 = k ∧ m2 = m ∧
      ∃ inst, lookupAssoc s.ollama_instances k = some inst ∧ m ∈ inst.models := by
  have h0 : (match lookupAssoc s.ollama_instances k with
      | none => Except.error (ResolveError.instanceUnavailable k)
      | some inst =>
        if m ∈ inst.models then Except.ok (k, m)
        else Except.error (ResolveError.modelUnavailable m k))
      = Except.ok (k2, m2) := h
  rcases hlk : lookupAssoc s.ollama_instances k with _ | inst
  · rw [hlk] at h0
    exact Except.noConfusion h0
  · rw [hlk] at h0
    have h' : (if m ∈ inst.models then Except.ok (k, m)
        else Except.error (ResolveError.modelUnavailable m k)) = Except.ok (k2, m2) := h0
    by_cases hm : m ∈ inst.models
    · rw [if_pos hm] at h'
      simp only [Except.ok.injEq, Prod.mk.injEq] at h'
      exact ⟨h'.1.symm, h'.2.symm, inst, rfl, hm⟩
    · rw [if_neg hm] at h'
      exact Except.noConfusion h'

theorem resolve_chosen_assigned {s : OllamaState} {step : String}
    (hb : (truthyStr (get_step_model s step).1 && truthyStr (get_step_model s step).2)
      = true) :
    resolve_chosen s step
      = Except.ok ((get_step_model s step).1.getD "", (get_step_model s step).2.getD "") := by
  unfold resolve_chosen
  rw [if_pos hb]

theorem resolve_chosen_fallback {s : OllamaState} {step : String}
    (hb : (truthyStr (get_step_model s step).1 && truthyStr (get_step_model s step).2)
      = false)
    (hsel : truthyStr s.selected_model = true) :
    resolve_chosen s step = Except.ok ("localhost:11434", s.selected_model.getD "") := by
  unfold resolve_chosen
  rw [if_neg (by simp [hb]), if_pos hsel]

theorem resolve_chosen_unset {s : OllamaState} {step : String}
    (hb : (truthyStr (get_step_model s step).1 && truthyStr (get_step_model s step).2)
      = false)
    (hsel : truthyStr s.selected_model = false) :
    resolve_chosen s step = Except.error (ResolveError.noModelAssigned step) := by
  unfold resolve_chosen
  rw [if_neg (by simp [hb]), if_neg (by simp [hsel])]

/-- C7 (amended): a successful resolution returns either exactly the
stage's configured (endpoint, model) pair — when both halves of the
assignment are set — or the documented legacy fallback,
`config['selected_model']` on `localhost:11434`, when the assignment is
unset; every successful resolution names an endpoint present in the
instance cache whose model list contains the model (the cached
online/offline status is not consulted); and when both the assignment and
the legacy model are unset, resolution raises NotConfigured instead of
substituting anything. -/
theorem resolve_step_target_characterization (s : OllamaState) (step : String)
    (instance_key model_name : String) :
    (resolve_step_target s step = Except.ok (instance_key, model_name) →
      ((get_step_model s step).1 = some instance_key ∧
        (get_step_model s step).2 = some model_name) ∨
      ((truthyStr (get_step_model s step).1 = false ∨
          truthyStr (get_step_model s step).2 = false) ∧
        instance_key = "localhost:11434" ∧ s.selected_model = some model_name)) ∧
    (resolve_step_target s step = Except.ok (instance_key, model_name) →
      ∃ inst, lookupAssoc s.ollama_instances instance_key = some inst ∧
        model_name ∈ inst.models) ∧
    ((truthyStr (get_step_model s step).1 = false ∨
        truthyStr (get_step_model s step).2 = false) →
      truthyStr s.selected_model = false →
      resolve_step_target s step = Except.error (ResolveError.noModelAssigned step)) := by
  refine ⟨?_, ?_, ?_⟩
  · intro h
    by_cases hb : (truthyStr (get_step_model s step).1
        && truthyStr (get_step_model s step).2) = true
    · left
      unfold resolve_step_target at h
      rw [resolve_chosen_assigned hb] at h
      obtain ⟨hk, hm, _⟩ := resolve_validate_ok_inv h
      simp only [Bool.and_eq_true] at hb
      constructor
      · rw [truthyStr_spec hb.1, hk]
      · rw [truthyStr_spec hb.2, hm]
    · right
      have hb' : (truthyStr (get_step_model s step).1
          && truthyStr (get_step_model s step).2) = false := by
        simpa using hb
      have hor : truthyStr (get_step_model s step).1 = false ∨
          truthyStr (get_step_model s step).2 = false := by
        cases hx : truthyStr (get_step_model s step).1 with
        | false => exact Or.inl rfl
        | true =>
          cases hy : truthyStr (get_step_model s step).2 with
          | false => exact Or.inr rfl
          | true =>
            rw [hx, hy] at hb'
            cases hb'
      by_cases hsel : truthyStr s.selected_model = true
      · unfold resolve_step_target at h
        rw [resolve_chosen_fallback hb' hsel] at h
        obtain ⟨hk, hm, _⟩ := resolve_validate_ok_inv h
        exact ⟨hor, hk, by rw [truthyStr_spec hsel, hm]⟩
      · have hsel' : truthyStr s.selected_model = false := by
          simpa using hsel
        unfold resolve_step_target at h
        rw [resolve_chosen_unset hb' hsel'] at h
        cases h
  · intro h
    unfold resolve_step_target at h
    rcases hch : resolve_chosen s step with e | ⟨k0, m0⟩
    · rw [hch] at h
      cases h
    · rw [hch] at h
      obtain ⟨hk, hm, inst, hlk, hmem⟩ := resolve_validate_ok_inv h
      exact ⟨inst, by rw [hk]; exact hlk, by rw [hm]; exact hmem⟩
  · intro hor hsel
    have hb' : (truthyStr (get_step_model s step).1
        && truthyStr (get_step_model s step).2) = false := by
      rcases hor with h1 | h1 <;> simp [h1]
    unfold resolve_step_target
    rw [resolve_chosen_unset hb' hsel]
    rfl

/-- The cached localhost instance of the C7 scenarios. -/
def witnessInstC7 : OInstance := { models := ["llama"], status := "online" }

/-- C7 counterexample state: the `story` stage is unassigned but the legacy
`selected_model` is configured. -/
def witnessStateC7 : OllamaState :=
  { ollama_instances := [("localhost:11434", witnessInstC7)]
    step_model_assignments := [("story", (none, none))]
    selected_model := some "llama" }

/-- C7 counterexample: with the `story` stage unassigned, resolution does
not return a NotConfigured signal — it silently substitutes the legacy
localhost model as a fallback. -/
theorem resolve_substitutes_legacy_fallback :
    get_step_model witnessStateC7 "story" = (none, none) ∧
    resolve_step_target witnessStateC7 "story"
      = Except.ok ("localhost:11434", "llama") :=
  ⟨rfl, rfl⟩

/-- C7 witness state: the `story` stage is explicitly assigned. -/
def witnessStateC7ok : OllamaState :=
  { ollama_instances := [("localhost:11434", witnessInstC7)]
    step_model_assignments := [("story", (some "localhost:11434", some "llama"))]
    selected_model := none }

/-- Concrete instantiation of `resolve_step_target_characterization`: a
successful resolution of an assigned stage reports the assigned pair. -/
theorem resolve_step_target_characterization_witness :
    ((get_step_model witnessStateC7ok "story").1 = some "localhost:11434" ∧
      (get_step_model witnessStateC7ok "story").2 = some "llama") ∨
    ((truthyStr (get_step_model witnessStateC7ok "story").1 = false ∨
        truthyStr (get_step_model witnessStateC7ok "story").2 = false) ∧
      "localhost:11434" = "localhost:11434" ∧
      witnessStateC7ok.selected_model = some "llama") :=
  (resolve_step_target_characterization witnessStateC7ok "story"
    "localhost:11434" "llama").1 (by rfl)

/-- C8: `set_step_model` fails (returning `False`) with the state unchanged
whenever the endpoint key is unknown or the model is absent from that
endpoint's current model list; when both validations pass it returns `True`,
records exactly the requested pair for the stage, and leaves the instance
cache, the legacy model and every other stage's assignment unchanged. -/
theorem set_step_model_validates (s : OllamaState) (step instance_key model_name : String) :
    (lookupAssoc s.ollama_instances instance_key = none →
      set_step_model s step instance_key model_name = (false, s)) ∧
    (∀ inst, lookupAssoc s.ollama_instances instance_key = some inst →
      model_name ∉ inst.models →
      set_step_model s step instance_key model_name = (false, s)) ∧
    (∀ inst, lookupAssoc s.ollama_instances instance_key = some inst →
      model_name ∈ inst.models →
      (set_step_model s step instance_key model_name).1 = true ∧
      get_step_model (set_step_model s step instance_key model_name).2 step
        = (some instance_key, some model_name) ∧
      (set_step_model s step instance_key model_name).2.ollama_instances
        = s.ollama_instances ∧
      (set_step_model s step instance_key model_name).2.selected_model
        = s.selected_model ∧
      (∀ step2, step2 ≠ step →
        get_step_model (set_step_model s step instance_key model_name).2 step2
          = get_step_model s step2)) := by
  refine ⟨?_, ?_, ?_⟩
  · intro h
    simp [set_step_model, h]
  · intro inst h hm
    simp [set_step_model, h, hm]
  · intro inst h hm
    have hred : set_step_model s step instance_key model_name
        = (true,
           { s with step_model_assignments :=
               setAssoc s.step_model_assignments step (some instance_key, some model_name) })
        := by
      simp [set_step_model, h, hm]
    rw [hred]
    refine ⟨rfl, ?_, rfl, rfl, ?_⟩
    · show (lookupAssoc (setAssoc s.step_model_assignments step
          (some instance_key, some model_name)) step).getD (none, none)
        = (some instance_key, some model_name)
      rw [lookupAssoc_setAssoc_self]
      rfl
    · intro step2 hne
      show (lookupAssoc (setAssoc s.step_model_assignments step
          (some instance_key, some model_name)) step2).getD (none, none)
        = get_step_model s step2
      rw [lookupAssoc_setAssoc_ne _ hne]
      rfl

/-- The cached endpoint of the C8 witness scenario. -/
def witnessInstC8 : OInstance := { models := ["modelZ"], status := "online" }

/-- The router state of the C8 witness scenario. -/
def witnessStateC8 : OllamaState :=
  { ollama_instances := [("endpointX", witnessInstC8)]
    step_model_assignments := []
    selected_model := none }

/-- Concrete instantiation of `set_step_model_validates`: assigning a model
hosted by a known endpoint succeeds and records exactly that pair. -/
theorem set_step_model_validates_witness :
    (set_step_model witnessStateC8 "narration" "endpointX" "modelZ").1 = true ∧
    get_step_model (set_step_model witnessStateC8 "narration" "endpointX" "modelZ").2
        "narration"
      = (some "endpointX", some "modelZ") ∧
    (set_step_model witnessStateC8 "narration" "endpointX" "modelZ").2.ollama_instances
      = witnessStateC8.ollama_instances ∧
    (set_step_model witnessStateC8 "narration" "endpointX" "modelZ").2.selected_model
      = witnessStateC8.selected_model := by
  obtain ⟨h1, h2, h3, h4, h5⟩ :=
    (set_step_model_validates witnessStateC8 "narration" "endpointX" "modelZ").2.2
      witnessInstC8 (by rfl) (by decide)
  exact ⟨h1, h2, h3, h4⟩

/-- C9: no operation of the discovery cache deletes an entry: the
`fast_scan` merge only adds or overwrites entries, `refresh_models_for_instance`
keeps every key, and an endpoint whose probe fails is only marked
`offline` — its entry (with its stale model list) remains in the cache. -/
theorem discovery_never_deletes (cache found : List (String × OInstance))
    (k instance_key : String) (probe : Option (List String)) :
    ((lookupAssoc cache k).isSome = true →
      (lookupAssoc (fast_scan_merge cache found) k).isSome = true) ∧
    ((lookupAssoc cache k).isSome = true →
      (lookupAssoc (refresh_models_for_instance cache instance_key probe).1 k).isSome
        = true) ∧
    (∀ inst, lookupAssoc cache instance_key = some inst →
      lookupAssoc (refresh_models_for_instance cache instance_key none).1 instance_key
        = some { inst with status := "offline" }) := by
  refine ⟨?_, ?_, ?_⟩
  · unfold fast_scan_merge
    induction found generalizing cache with
    | nil => exact fun h => h
    | cons kv rest ih =>
      intro h
      rw [List.foldl_cons]
      exact ih (setAssoc cache kv.1 kv.2)
        (lookupAssoc_setAssoc_isSome cache kv.1 k kv.2 h)
  · intro h
    unfold refresh_models_for_instance
    rcases hlk : lookupAssoc cache instance_key with _ | inst
    · exact h
    · rcases probe with _ | models
      · exact lookupAssoc_setAssoc_isSome cache instance_key k _ h
      · exact lookupAssoc_setAssoc_isSome cache instance_key k _ h
  · intro inst h
    simp only [refresh_models_for_instance, h]
    rw [lookupAssoc_setAssoc_self]

/-- The cached entry of the C9 witness scenario. -/
def witnessInstC9 : OInstance := { models := ["mistral"], status := "online" }

/-- The discovery cache of the C9 witness scenario. -/
def witnessCacheC9 : List (String × OInstance) := [("10.0.0.5:11434", witnessInstC9)]

/-- The entries found by the C9 witness scan. -/
def witnessFoundC9 : List (String × OInstance) :=
  [("10.0.0.9:11434", { models := ["phi"], status := "online" })]

/-- Concrete instantiation of `discovery_never_deletes`: the cached entry
survives a scan merge and a failed probe, ending up marked offline. -/
theorem discovery_never_deletes_witness :
    (lookupAssoc (fast_scan_merge witnessCacheC9 witnessFoundC9) "10.0.0.5:11434").isSome
      = true ∧
    (lookupAssoc (refresh_models_for_instance witnessCacheC9 "10.0.0.5:11434" none).1
        "10.0.0.5:11434").isSome = true ∧
    lookupAssoc (refresh_models_for_instance witnessCacheC9 "10.0.0.5:11434" none).1
        "10.0.0.5:11434"
      = some { witnessInstC9 with status := "offline" } :=
  ⟨(discovery_never_deletes witnessCacheC9 witnessFoundC9 "10.0.0.5:11434"
      "10.0.0.5:11434" none).1 (by rfl),
   (discovery_never_deletes witnessCacheC9 witnessFoundC9 "10.0.0.5:11434"
      "10.0.0.5:11434" none).2.1 (by rfl),
   (discovery_never_deletes witnessCacheC9 witnessFoundC9 "10.0.0.5:11434"
      "10.0.0.5:11434" none).2.2 witnessInstC9 (by rfl)⟩
